import Mathlib

/-!
Verification development for the data-download utility (`src/download_data.py`).

The embedding models:
* `create_sample_data` — the synthetic OHLC series generator;
* `fetch_data_from_api` and the per-source stubs — the fetch dispatcher with
  its catch-all degrade-to-sample policy;
* `download_financial_data` — the CSV exporter (timestamp reformatting to
  minute precision, file naming, empty-result handling);
* `download_all_assets` — the batch driver over the hardcoded
  instrument/resolution matrix.

Dates are calendar triples (year, month, day); timestamps are epoch
milliseconds as integers (the `datetime`/`pandas` conversions are modelled by
an executable proleptic-Gregorian calendar).  Prices appear at two levels:
`sampleRow` carries the idealized decimal values `100 + i*0.1`, `±0.5`,
`+0.2` as exact rationals (enough for the structural, timestamp and export
properties, which do not depend on price rounding), while the
`floatOpen`/`floatHigh`/`floatLow`/`floatClose` functions give the exact
values of the IEEE-754 binary64 numbers the program actually computes and
stores, via an integer model of round-to-nearest-even; the exactness claims
about prices are settled against the float64 model.  Printing is modelled by
an explicit list of log events, and the `try/except` of the dispatcher by an
`Except` value consumed by `tryFetch`.
-/

namespace DownloadData

/-- A calendar date, as parsed by `datetime.strptime(s, "%Y-%m-%d")`. -/
structure Date where
  year : Nat
  month : Nat
  day : Nat
deriving DecidableEq

/-- Gregorian leap-year test. -/
def isLeapYear (y : Nat) : Bool :=
  (y % 4 == 0 && y % 100 != 0) || (y % 400 == 0)

/-- Number of days in a Gregorian year. -/
def daysInYear (y : Nat) : Nat :=
  if isLeapYear y then 366 else 365

/-- Lengths of the twelve months of year `y`. -/
def monthLengths (y : Nat) : List Nat :=
  [31, if isLeapYear y then 29 else 28, 31, 30, 31, 30, 31, 31, 30, 31, 30, 31]

/-- Number of days in month `m` (1-based) of year `y`. -/
def daysInMonth (y m : Nat) : Nat :=
  (monthLengths y).getD (m - 1) 31

/-- Days from 0001-01-01 to the start of year `y` (proleptic Gregorian):
365 per elapsed year plus the elapsed leap days. -/
def daysBeforeYear (y : Nat) : Nat :=
  365 * (y - 1) + (y - 1) / 4 - (y - 1) / 100 + (y - 1) / 400

/-- Days from the start of year `y` to the start of its month `m` (1-based). -/
def daysBeforeMonth (y m : Nat) : Nat :=
  ((monthLengths y).take (m - 1)).sum

/-- Days from 0001-01-01 to the date `(y, m, d)`. -/
def daysFromCivilN (y m d : Nat) : Nat :=
  daysBeforeYear y + daysBeforeMonth y m + (d - 1)

/-- Days from the Unix epoch 1970-01-01 to the given date (may be negative).
1970-01-01 is day 719162 counted from 0001-01-01. -/
def daysFromCivil (dt : Date) : Int :=
  (daysFromCivilN dt.year dt.month dt.day : Int) - 719162

/-- Epoch milliseconds of midnight of a date: `datetime.timestamp() * 1000`
for a naive datetime interpreted as UTC, as `create_sample_data` does. -/
def epochMs (dt : Date) : Int :=
  daysFromCivil dt * 86400000

/-- Chronological order on dates. -/
def dateLE (a b : Date) : Prop :=
  daysFromCivil a ≤ daysFromCivil b

instance (a b : Date) : Decidable (dateLE a b) := by
  unfold dateLE; infer_instance

/-- A date `strptime` accepts: year in 1..9999, month 1..12, day within the
month. -/
def ValidDate (dt : Date) : Prop :=
  1 ≤ dt.year ∧ dt.year ≤ 9999 ∧ 1 ≤ dt.month ∧ dt.month ≤ 12 ∧
    1 ≤ dt.day ∧ dt.day ≤ daysInMonth dt.year dt.month

instance (dt : Date) : Decidable (ValidDate dt) := by
  unfold ValidDate; infer_instance

/-- Find the year containing day `d` counted from the start of year `y`:
walk forward a year at a time.  Returns the year and the day-of-year.  The
third argument is fuel bounding the number of steps (every year has at least
365 days, so `d / 365 + 1` steps always suffice). -/
def findYear : Nat → Nat → Nat → Nat × Nat
  | y, d, 0 => (y, d)
  | y, d, fuel + 1 =>
    if daysInYear y ≤ d then findYear (y + 1) (d - daysInYear y) fuel
    else (y, d)

/-- Find the month containing day `d` counted from the start of the month
list, starting at month number `m`.  Returns the month and day-of-month
(0-based). -/
def findMonth (m d : Nat) : List Nat → Nat × Nat
  | [] => (m, d)
  | len :: rest => if len ≤ d then findMonth (m + 1) (d - len) rest else (m, d)

/-- Date of day `z` counted from the Unix epoch: the inverse calendar
conversion used when pandas renders an epoch-millisecond timestamp.  The
model covers post-epoch days (`z ≥ 0`), the domain in which every claim
lives; the search starts at 1970. -/
def civilFromDays (z : Int) : Date :=
  let zs : Nat := z.toNat
  let yp := findYear 1970 zs (zs / 365 + 1)
  let mp := findMonth 1 yp.2 (monthLengths yp.1)
  { year := yp.1, month := mp.1, day := mp.2 + 1 }

/-! ### Calendar round-trip lemmas -/

theorem daysInYear_eq (y : Nat) :
    daysInYear y = if (y % 4 = 0 ∧ y % 100 ≠ 0) ∨ y % 400 = 0 then 366
      else 365 := by
  unfold daysInYear isLeapYear
  by_cases h4 : y % 4 = 0 <;> by_cases h100 : y % 100 = 0 <;>
    by_cases h400 : y % 400 = 0 <;> simp [h4, h100, h400]

theorem daysBeforeYear_succ (y : Nat) (hy : 1 ≤ y) :
    daysBeforeYear (y + 1) = daysBeforeYear y + daysInYear y := by
  rw [daysInYear_eq]
  unfold daysBeforeYear
  have hcancel : y + 1 - 1 = y := by omega
  rw [hcancel]
  have h1004 : y % 100 = 0 → y % 4 = 0 := by omega
  have h400100 : y % 400 = 0 → y % 100 = 0 := by omega
  have e4 : y % 4 = 0 → y / 4 = (y - 1) / 4 + 1 := by omega
  have e4n : y % 4 ≠ 0 → y / 4 = (y - 1) / 4 := by omega
  have e100 : y % 100 = 0 → y / 100 = (y - 1) / 100 + 1 := by omega
  have e100n : y % 100 ≠ 0 → y / 100 = (y - 1) / 100 := by omega
  have e400 : y % 400 = 0 → y / 400 = (y - 1) / 400 + 1 := by omega
  have e400n : y % 400 ≠ 0 → y / 400 = (y - 1) / 400 := by omega
  have hd4 : (y - 1) / 100 ≤ 365 * (y - 1) + (y - 1) / 4 := by
    have := Nat.div_le_self (y - 1) 100
    omega
  split_ifs with h
  · by_cases hc : y % 400 = 0
    · rw [e4 (h1004 (h400100 hc)), e100 (h400100 hc), e400 hc]
      omega
    · rcases h with ⟨h4, h100⟩ | hc'
      · rw [e4 h4, e100n h100, e400n hc]
        omega
      · exact absurd hc' hc
  · by_cases h4 : y % 4 = 0
    · have h100 : y % 100 = 0 := by
        by_contra hne
        exact h (Or.inl ⟨h4, hne⟩)
      have hc : y % 400 ≠ 0 := fun hh => h (Or.inr hh)
      rw [e4 h4, e100 h100, e400n hc]
      omega
    · have h100 : y % 100 ≠ 0 := fun hh => h4 (h1004 hh)
      have hc : y % 400 ≠ 0 := fun hh => h100 (h400100 hh)
      rw [e4n h4, e100n h100, e400n hc]
      omega

theorem findYear_spec (fuel d y₀ : Nat) (hy : 1 ≤ y₀)
    (hfuel : d < 365 * fuel) :
    daysBeforeYear (findYear y₀ d fuel).1 + (findYear y₀ d fuel).2 =
        daysBeforeYear y₀ + d ∧
      (findYear y₀ d fuel).2 < daysInYear (findYear y₀ d fuel).1 ∧
      y₀ ≤ (findYear y₀ d fuel).1 := by
  induction fuel generalizing d y₀ with
  | zero => omega
  | succ fuel ih =>
    simp only [findYear]
    split
    · rename_i h
      have h365 : 365 ≤ daysInYear y₀ := by unfold daysInYear; split <;> omega
      have := ih (d - daysInYear y₀) (y₀ + 1) (by omega) (by omega)
      have hsucc := daysBeforeYear_succ y₀ hy
      refine ⟨?_, this.2.1, by omega⟩
      omega
    · rename_i h
      refine ⟨rfl, ?_, le_refl _⟩
      show d < daysInYear y₀
      omega

theorem findMonth_spec (ls : List Nat) (m₀ d : Nat) (hd : d < ls.sum) :
    (ls.take ((findMonth m₀ d ls).1 - m₀)).sum + (findMonth m₀ d ls).2 = d ∧
      m₀ ≤ (findMonth m₀ d ls).1 ∧
      (findMonth m₀ d ls).1 - m₀ < ls.length ∧
      (findMonth m₀ d ls).2 < ls.getD ((findMonth m₀ d ls).1 - m₀) 0 := by
  induction ls generalizing m₀ d with
  | nil => simp at hd
  | cons len rest ih =>
    rw [findMonth]
    split
    · rename_i h
      have hd' : d - len < rest.sum := by
        simp only [List.sum_cons] at hd; omega
      have := ih (m₀ + 1) (d - len) hd'
      have hm : m₀ + 1 ≤ (findMonth (m₀ + 1) (d - len) rest).1 := this.2.1
      refine ⟨?_, by omega, ?_, ?_⟩
      · have htake : (findMonth (m₀ + 1) (d - len) rest).1 - m₀ =
            ((findMonth (m₀ + 1) (d - len) rest).1 - (m₀ + 1)) + 1 := by omega
        rw [htake, List.take_succ_cons, List.sum_cons]
        omega
      · simp only [List.length_cons]; omega
      · have htake : (findMonth (m₀ + 1) (d - len) rest).1 - m₀ =
            ((findMonth (m₀ + 1) (d - len) rest).1 - (m₀ + 1)) + 1 := by omega
        rw [htake]
        simpa using this.2.2.2
    · rename_i h
      refine ⟨by simp, le_refl _, by simp, ?_⟩
      simpa using by omega

theorem monthLengths_sum (y : Nat) : (monthLengths y).sum = daysInYear y := by
  unfold monthLengths daysInYear
  split <;> simp

/-- Converting a post-epoch day number to a calendar date and back is the
identity. -/
theorem daysFromCivil_civilFromDays (z : Int) (hz : 0 ≤ z) :
    daysFromCivil (civilFromDays z) = z := by
  have hzz : civilFromDays z =
      { year := (findYear 1970 z.toNat (z.toNat / 365 + 1)).1,
        month := (findMonth 1 (findYear 1970 z.toNat (z.toNat / 365 + 1)).2
          (monthLengths (findYear 1970 z.toNat (z.toNat / 365 + 1)).1)).1,
        day := (findMonth 1 (findYear 1970 z.toNat (z.toNat / 365 + 1)).2
          (monthLengths (findYear 1970 z.toNat (z.toNat / 365 + 1)).1)).2 +
            1 } := rfl
  rw [hzz]
  set zs : Nat := z.toNat with hzs
  obtain ⟨hy1, hy2, hy3⟩ :=
    findYear_spec (zs / 365 + 1) zs 1970 (by omega) (by omega)
  set y := (findYear 1970 zs (zs / 365 + 1)).1 with hy
  set doy := (findYear 1970 zs (zs / 365 + 1)).2 with hdoy
  have hsum : doy < (monthLengths y).sum := by
    rw [monthLengths_sum]; exact hy2
  obtain ⟨hm1, hm2, hm3, hm4⟩ := findMonth_spec (monthLengths y) 1 doy hsum
  set m := (findMonth 1 doy (monthLengths y)).1 with hm
  set dom := (findMonth 1 doy (monthLengths y)).2 with hdom
  unfold daysFromCivil daysFromCivilN
  simp only
  unfold daysBeforeMonth
  have h1 : daysBeforeYear 1970 = 719162 := by decide
  have hztn : (zs : Int) = z := by omega
  omega

/-- The minute-precision display form of a timestamp: the components of
`strftime("%Y-%m-%d %H:%M")` applied to an epoch-millisecond value. -/
structure DisplayTs where
  year : Nat
  month : Nat
  day : Nat
  hour : Nat
  minute : Nat
deriving DecidableEq

/-- Display components of an epoch-millisecond timestamp (seconds and
milliseconds truncated, as `strftime("%Y-%m-%d %H:%M")` does). -/
def toDisplay (ts : Int) : DisplayTs :=
  let minutes : Int := ts / 60000
  let days : Int := minutes / 1440
  let minOfDay : Nat := (minutes % 1440).toNat
  let c := civilFromDays days
  { year := c.year, month := c.month, day := c.day,
    hour := minOfDay / 60, minute := minOfDay % 60 }

/-- Epoch milliseconds represented by a display timestamp (what a reader of
the CSV can reconstruct from the minute-precision string). -/
def parseDisplay (t : DisplayTs) : Int :=
  daysFromCivil ⟨t.year, t.month, t.day⟩ * 86400000 +
    (t.hour * 3600000 + t.minute * 60000 : Nat)

/-- Parsing the displayed timestamp recovers the timestamp truncated to the
minute. -/
theorem parseDisplay_toDisplay (ts : Int) (hts : 0 ≤ ts) :
    parseDisplay (toDisplay ts) = 60000 * (ts / 60000) := by
  unfold toDisplay parseDisplay
  simp only
  have hdays : daysFromCivil (civilFromDays (ts / 60000 / 1440)) =
      ts / 60000 / 1440 :=
    daysFromCivil_civilFromDays _ (by positivity)
  rw [hdays]
  omega

/-! ### The synthetic series generator (`create_sample_data`) -/

/-- One OHLC row of the generated DataFrame: epoch-millisecond timestamp and
the four price columns (exact arithmetic). -/
structure Row where
  timestamp : Int
  open_ : ℚ
  high : ℚ
  low : ℚ
  close : ℚ
deriving DecidableEq

/-- A Series is the ordered list of rows of the DataFrame. -/
abbrev Series := List Row

/-- Millisecond step of a resolution string: the `freq_map` of
`create_sample_data`, with unrecognized resolutions (and "1D") mapping to one
day, mirroring `freq_map.get(resolution, "1D")`. -/
def stepMs (resolution : String) : Nat :=
  if resolution = "1min" then 60000
  else if resolution = "5min" then 300000
  else if resolution = "15min" then 900000
  else if resolution = "30min" then 1800000
  else if resolution = "1H" then 3600000
  else 86400000

/-- The i-th row generated by `create_sample_data`: timestamp
`start + i*step`, prices `100 + i*0.1`, `+0.5`, `-0.5`, `+0.2`. -/
def sampleRow (startMs : Int) (step : Nat) (i : Nat) : Row :=
  { timestamp := startMs + i * step
  , open_ := 100 + i * (1 / 10)
  , high := 100 + i * (1 / 10) + 1 / 2
  , low := 100 + i * (1 / 10) - 1 / 2
  , close := 100 + i * (1 / 10) + 1 / 5 }

/-- `create_sample_data(start_date, end_date, resolution)`: the evenly spaced
timestamp range from start to end inclusive (empty when start > end, as
`pd.date_range` yields), with the deterministic price ramp. -/
def create_sample_data (start_date end_date : Date) (resolution : String) :
    Series :=
  let s := epochMs start_date
  let e := epochMs end_date
  let step := stepMs resolution
  if s ≤ e then
    (List.range ((e - s).toNat / step + 1)).map (sampleRow s step)
  else []

/-! ### The fetch dispatcher (`fetch_data_from_api`) -/

/-- Console messages printed by the pipeline. -/
inductive LogEvent
  | fetchMsg (source instrument resolution : String)
  | unknownSource (source : String)
  | fetchError (msg : String)
  | emptyWarning (instrument resolution : String)
  | savedMsg (path : String)
deriving DecidableEq

/-- A Python exception escaping a fetch branch. -/
structure Err where
  msg : String
deriving DecidableEq

/-- `fetch_alphavantage` (stub): prints its message and returns sample data;
raises nothing. The api key and the resolution map are unused by the stub. -/
def fetch_alphavantage (instrument resolution : String)
    (start_date end_date : Date) (api_key : Option String) :
    Except Err (Series × List LogEvent) :=
  Except.ok (create_sample_data start_date end_date resolution,
    [LogEvent.fetchMsg "alphavantage" instrument resolution])

/-- `fetch_polygon` (stub): prints its message and returns sample data. -/
def fetch_polygon (instrument resolution : String)
    (start_date end_date : Date) (api_key : Option String) :
    Except Err (Series × List LogEvent) :=
  Except.ok (create_sample_data start_date end_date resolution,
    [LogEvent.fetchMsg "polygon" instrument resolution])

/-- `fetch_finnhub` (stub): prints its message and returns sample data. -/
def fetch_finnhub (instrument resolution : String)
    (start_date end_date : Date) (api_key : Option String) :
    Except Err (Series × List LogEvent) :=
  Except.ok (create_sample_data start_date end_date resolution,
    [LogEvent.fetchMsg "finnhub" instrument resolution])

/-- The body of the `try:` block of `fetch_data_from_api`: the if/elif
dispatch on the data-source selector, the unknown-source branch printing a
warning and returning sample data. -/
def dispatch_body (instrument resolution : String)
    (start_date end_date : Date) (data_source : String)
    (api_key : Option String) : Except Err (Series × List LogEvent) :=
  if data_source = "alphavantage" then
    fetch_alphavantage instrument resolution start_date end_date api_key
  else if data_source = "polygon" then
    fetch_polygon instrument resolution start_date end_date api_key
  else if data_source = "finnhub" then
    fetch_finnhub instrument resolution start_date end_date api_key
  else
    Except.ok (create_sample_data start_date end_date resolution,
      [LogEvent.unknownSource data_source])

/-- The `except Exception` handler of `fetch_data_from_api`: a raised
exception is converted into the synthetic fallback on the same parameters. -/
def tryFetch (body : Except Err (Series × List LogEvent))
    (start_date end_date : Date) (resolution : String) :
    Series × List LogEvent :=
  match body with
  | Except.ok r => r
  | Except.error e =>
      (create_sample_data start_date end_date resolution,
        [LogEvent.fetchError e.msg])

/-- `fetch_data_from_api`: dispatch wrapped in the catch-all handler.  The
return type carries no error: the dispatcher cannot propagate one. -/
def fetch_data_from_api (instrument resolution : String)
    (start_date end_date : Date) (data_source : String)
    (api_key : Option String) : Series × List LogEvent :=
  tryFetch
    (dispatch_body instrument resolution start_date end_date data_source
      api_key)
    start_date end_date resolution

/-! ### The exporter (`download_financial_data`) -/

/-- One line of the written CSV: the minute-precision display timestamp and
the four price columns (written and re-read exactly). -/
structure CsvRow where
  timestamp : DisplayTs
  open_ : ℚ
  high : ℚ
  low : ℚ
  close : ℚ
deriving DecidableEq

/-- The per-row export transform: `pd.to_datetime(ts, unit="ms")` followed by
`strftime("%Y-%m-%d %H:%M")` on the timestamp column; prices unchanged. -/
def toCsvRow (r : Row) : CsvRow :=
  { timestamp := toDisplay r.timestamp
  , open_ := r.open_, high := r.high, low := r.low, close := r.close }

/-- Re-parsing one CSV line: the timestamp string gives back epoch
milliseconds at minute precision, the prices are read back exactly. -/
def parseCsvRow (c : CsvRow) : Row :=
  { timestamp := parseDisplay c.timestamp
  , open_ := c.open_, high := c.high, low := c.low, close := c.close }

/-- `download_financial_data`: fetch, bail out with a warning on an empty
result, otherwise reformat timestamps and write
data_dir/instrument_resolution.csv.  The first component is the
written file (path and rows), `none` when nothing was written. -/
def download_financial_data (instrument resolution : String)
    (start_date end_date : Date) (data_source : String)
    (api_key : Option String) (data_dir : String) :
    Option (String × List CsvRow) × List LogEvent :=
  let fetched := fetch_data_from_api instrument resolution start_date
    end_date data_source api_key
  if fetched.1.isEmpty then
    (none, fetched.2 ++ [LogEvent.emptyWarning instrument resolution])
  else
    let filepath := data_dir ++ "/" ++ instrument ++ "_" ++ resolution ++
      ".csv"
    (some (filepath, fetched.1.map toCsvRow),
      fetched.2 ++ [LogEvent.savedMsg filepath])

/-! ### The batch driver (`download_all_assets`) -/

/-- The hardcoded instrument list of `download_all_assets`. -/
def instruments : List String := ["EURUSD", "XAUUSD", "US30"]

/-- The hardcoded resolution list of `download_all_assets`. -/
def resolutions : List String := ["1min", "5min", "15min", "30min", "1H"]

/-- All (instrument, resolution) pairs the driver iterates, in loop order. -/
def allPairs : List (String × String) :=
  instruments.flatMap fun inst => resolutions.map fun res => (inst, res)

/-- The accumulation of the driver loop: keep the path of every pair whose
export returned one, skip the `None`s. -/
def collectSome (results : List (Option String)) : List String :=
  results.filterMap id

/-- The driver loop over `allPairs`, abstracted over what one pair returns. -/
def batch_run (runPair : String → String → Option String) : List String :=
  collectSome (allPairs.map fun p => runPair p.1 p.2)

/-- `download_all_assets`: run the pipeline for every hardcoded pair over the
hardcoded window 2025-01-01 .. 2025-09-30, returning the written paths. -/
def download_all_assets (data_source : String) (api_key : Option String)
    (data_dir : String) : List String :=
  batch_run fun inst res =>
    (download_financial_data inst res ⟨2025, 1, 1⟩ ⟨2025, 9, 30⟩
        data_source api_key data_dir).1.map Prod.fst

/-! ### Helper lemmas -/

theorem stepMs_pos (res : String) : 0 < stepMs res := by
  unfold stepMs
  split_ifs <;> norm_num

theorem epochMs_le_of_dateLE {a b : Date} (h : dateLE a b) :
    epochMs a ≤ epochMs b := by
  unfold epochMs
  unfold dateLE at h
  exact mul_le_mul_of_nonneg_right h (by norm_num)

theorem create_sample_data_eq_pos (sd ed : Date) (res : String)
    (h : epochMs sd ≤ epochMs ed) :
    create_sample_data sd ed res =
      (List.range ((epochMs ed - epochMs sd).toNat / stepMs res + 1)).map
        (sampleRow (epochMs sd) (stepMs res)) := by
  unfold create_sample_data
  simp only
  rw [if_pos h]

theorem create_sample_data_length (sd ed : Date) (res : String)
    (h : epochMs sd ≤ epochMs ed) :
    (create_sample_data sd ed res).length =
      (epochMs ed - epochMs sd).toNat / stepMs res + 1 := by
  rw [create_sample_data_eq_pos sd ed res h]
  simp

theorem create_sample_data_getElem (sd ed : Date) (res : String)
    (h : epochMs sd ≤ epochMs ed) (i : Nat)
    (hi : i < (create_sample_data sd ed res).length) :
    (create_sample_data sd ed res)[i]? =
      some (sampleRow (epochMs sd) (stepMs res) i) := by
  rw [create_sample_data_eq_pos sd ed res h] at hi ⊢
  rw [List.getElem?_map]
  rw [List.length_map, List.length_range] at hi
  rw [List.getElem?_range hi]
  rfl

/-! ### Claim theorems -/

theorem create_sample_data_eq_neg (sd ed : Date) (res : String)
    (h : ¬ epochMs sd ≤ epochMs ed) :
    create_sample_data sd ed res = [] := by
  unfold create_sample_data
  simp only
  rw [if_neg h]

/-- Claim C2: for every valid range (start ≤ end) and resolution the
generated sequence is non-empty, its timestamps are strictly increasing and
evenly spaced by the resolution's step, and its length counts exactly the
steps fitting in [start, end] inclusive. -/
theorem c2_generator_shape (sd ed : Date) (res : String)
    (hsd : ValidDate sd) (hed : ValidDate ed) (hle : dateLE sd ed) :
    create_sample_data sd ed res ≠ [] ∧
      ((create_sample_data sd ed res).map Row.timestamp).Pairwise (· < ·) ∧
      (∀ i : Nat, i + 1 < (create_sample_data sd ed res).length →
        ∃ a b : Row, (create_sample_data sd ed res)[i]? = some a ∧
          (create_sample_data sd ed res)[i + 1]? = some b ∧
          b.timestamp = a.timestamp + stepMs res) ∧
      ∀ k : Nat, k < (create_sample_data sd ed res).length ↔
        epochMs sd + k * stepMs res ≤ epochMs ed := by
  have h := epochMs_le_of_dateLE hle
  have hstep := stepMs_pos res
  have hlen := create_sample_data_length sd ed res h
  refine ⟨?_, ?_, ?_, ?_⟩
  · intro hnil
    rw [hnil] at hlen
    simp at hlen
  · rw [create_sample_data_eq_pos sd ed res h, List.map_map]
    refine List.Pairwise.map _ ?_ (List.pairwise_lt_range _)
    intro i j hij
    show (sampleRow (epochMs sd) (stepMs res) i).timestamp <
      (sampleRow (epochMs sd) (stepMs res) j).timestamp
    unfold sampleRow
    simp only
    have : (i : Int) * stepMs res < (j : Int) * stepMs res := by
      apply mul_lt_mul_of_pos_right
      · exact_mod_cast hij
      · exact_mod_cast hstep
    omega
  · intro i hi
    have hi' : i < (create_sample_data sd ed res).length := by omega
    refine ⟨sampleRow (epochMs sd) (stepMs res) i,
      sampleRow (epochMs sd) (stepMs res) (i + 1),
      create_sample_data_getElem sd ed res h i hi',
      create_sample_data_getElem sd ed res h (i + 1) hi, ?_⟩
    unfold sampleRow
    simp only
    push_cast
    ring
  · intro k
    have hds : (((epochMs ed - epochMs sd).toNat : Int)) =
        epochMs ed - epochMs sd := Int.toNat_of_nonneg (by omega)
    rw [hlen]
    constructor
    · intro hk
      have hk' : k ≤ (epochMs ed - epochMs sd).toNat / stepMs res := by omega
      have hmul := (Nat.le_div_iff_mul_le hstep).mp hk'
      have hcast : ((k * stepMs res : Nat) : Int) ≤
          ((epochMs ed - epochMs sd).toNat : Int) := by exact_mod_cast hmul
      rw [hds] at hcast
      push_cast at hcast
      linarith
    · intro hk
      have hcast : ((k * stepMs res : Nat) : Int) ≤
          ((epochMs ed - epochMs sd).toNat : Int) := by
        rw [hds]
        push_cast
        linarith
      have hmul : k * stepMs res ≤ (epochMs ed - epochMs sd).toNat := by
        exact_mod_cast hcast
      have := (Nat.le_div_iff_mul_le hstep).mpr hmul
      omega

set_option maxRecDepth 40000 in
/-- Witness for C2 at a concrete input: 2025-01-01 to 2025-01-02 at "1H". -/
theorem c2_generator_shape_witness :
    ValidDate ⟨2025, 1, 1⟩ ∧ ValidDate ⟨2025, 1, 2⟩ ∧
      dateLE ⟨2025, 1, 1⟩ ⟨2025, 1, 2⟩ ∧
      (create_sample_data ⟨2025, 1, 1⟩ ⟨2025, 1, 2⟩ "1H" ≠ [] ∧
        ((create_sample_data ⟨2025, 1, 1⟩ ⟨2025, 1, 2⟩ "1H").map
          Row.timestamp).Pairwise (· < ·) ∧
        (∀ i : Nat,
          i + 1 < (create_sample_data ⟨2025, 1, 1⟩ ⟨2025, 1, 2⟩ "1H").length →
          ∃ a b : Row,
            (create_sample_data ⟨2025, 1, 1⟩ ⟨2025, 1, 2⟩ "1H")[i]? = some a ∧
            (create_sample_data ⟨2025, 1, 1⟩ ⟨2025, 1, 2⟩ "1H")[i + 1]? =
              some b ∧
            b.timestamp = a.timestamp + stepMs "1H") ∧
        ∀ k : Nat,
          k < (create_sample_data ⟨2025, 1, 1⟩ ⟨2025, 1, 2⟩ "1H").length ↔
            epochMs ⟨2025, 1, 1⟩ + k * stepMs "1H" ≤ epochMs ⟨2025, 1, 2⟩) :=
  ⟨by decide, by decide, by decide,
    c2_generator_shape ⟨2025, 1, 1⟩ ⟨2025, 1, 2⟩ "1H" (by decide) (by decide)
      (by decide)⟩

theorem fetch_series_eq (inst res : String) (sd ed : Date) (src : String)
    (key : Option String) :
    (fetch_data_from_api inst res sd ed src key).1 =
      create_sample_data sd ed res := by
  unfold fetch_data_from_api dispatch_body tryFetch fetch_alphavantage
    fetch_polygon fetch_finnhub
  split_ifs <;> rfl

/-- Claim C4: for every data-source selector — recognized or not — the
dispatcher returns exactly the synthetic generator's Series on the same
parameters; an unrecognized selector logs a warning, and no branch of the
dispatch raises (the dispatch body is always a normal result). -/
theorem c4_dispatcher_fallback (inst res : String) (sd ed : Date)
    (src : String) (key : Option String) :
    (fetch_data_from_api inst res sd ed src key).1 =
        create_sample_data sd ed res ∧
      (src ∉ (["alphavantage", "polygon", "finnhub"] : List String) →
        LogEvent.unknownSource src ∈
          (fetch_data_from_api inst res sd ed src key).2) ∧
      ∃ out, dispatch_body inst res sd ed src key = Except.ok out := by
  refine ⟨fetch_series_eq inst res sd ed src key, ?_, ?_⟩
  · intro hsrc
    have h1 : src ≠ "alphavantage" := by intro h; apply hsrc; rw [h]; simp
    have h2 : src ≠ "polygon" := by intro h; apply hsrc; rw [h]; simp
    have h3 : src ≠ "finnhub" := by intro h; apply hsrc; rw [h]; simp
    unfold fetch_data_from_api dispatch_body tryFetch
    rw [if_neg h1, if_neg h2, if_neg h3]
    simp
  · unfold dispatch_body fetch_alphavantage fetch_polygon fetch_finnhub
    split_ifs <;> exact ⟨_, rfl⟩

/-- Witness for C4: the unrecognized selector "bogus". -/
theorem c4_dispatcher_fallback_witness :
    (fetch_data_from_api "EURUSD" "1D" ⟨2025, 1, 1⟩ ⟨2025, 1, 2⟩ "bogus"
          none).1 =
        create_sample_data ⟨2025, 1, 1⟩ ⟨2025, 1, 2⟩ "1D" ∧
      ("bogus" ∉ (["alphavantage", "polygon", "finnhub"] : List String) ∧
        LogEvent.unknownSource "bogus" ∈
          (fetch_data_from_api "EURUSD" "1D" ⟨2025, 1, 1⟩ ⟨2025, 1, 2⟩
            "bogus" none).2) ∧
      ∃ out, dispatch_body "EURUSD" "1D" ⟨2025, 1, 1⟩ ⟨2025, 1, 2⟩ "bogus"
          none = Except.ok out :=
  ⟨(c4_dispatcher_fallback "EURUSD" "1D" ⟨2025, 1, 1⟩ ⟨2025, 1, 2⟩ "bogus"
      none).1,
    ⟨by decide,
      (c4_dispatcher_fallback "EURUSD" "1D" ⟨2025, 1, 1⟩ ⟨2025, 1, 2⟩ "bogus"
        none).2.1 (by decide)⟩,
    (c4_dispatcher_fallback "EURUSD" "1D" ⟨2025, 1, 1⟩ ⟨2025, 1, 2⟩ "bogus"
      none).2.2⟩

/-- Claim C5: any exception from a fetch branch is caught by the dispatcher's
handler and converted into the synthetic fallback on the same parameters, and
for every input the dispatcher hands its caller the synthetic Series rather
than an error. -/
theorem c5_catch_all_fallback (sd ed : Date) (res : String) (e : Err) :
    tryFetch (Except.error e) sd ed res =
        (create_sample_data sd ed res, [LogEvent.fetchError e.msg]) ∧
      ∀ (inst src : String) (key : Option String),
        (fetch_data_from_api inst res sd ed src key).1 =
          create_sample_data sd ed res :=
  ⟨rfl, fun inst src key => fetch_series_eq inst res sd ed src key⟩

/-- Claim C6: when the fetched Series is empty, the exporter writes no file,
returns an absent result, and prints the warning. -/
theorem c6_empty_no_write (inst res : String) (sd ed : Date) (src : String)
    (key : Option String) (dir : String)
    (hempty : (fetch_data_from_api inst res sd ed src key).1 = []) :
    (download_financial_data inst res sd ed src key dir).1 = none ∧
      LogEvent.emptyWarning inst res ∈
        (download_financial_data inst res sd ed src key dir).2 := by
  unfold download_financial_data
  simp only
  rw [hempty]
  simp

/-- Witness for C6: an inverted range (start after end) yields an empty
fetch. -/
theorem c6_empty_no_write_witness :
    (fetch_data_from_api "EURUSD" "1D" ⟨2025, 1, 2⟩ ⟨2025, 1, 1⟩
        "alphavantage" none).1 = [] ∧
      (download_financial_data "EURUSD" "1D" ⟨2025, 1, 2⟩ ⟨2025, 1, 1⟩
          "alphavantage" none "../data").1 = none ∧
      LogEvent.emptyWarning "EURUSD" "1D" ∈
        (download_financial_data "EURUSD" "1D" ⟨2025, 1, 2⟩ ⟨2025, 1, 1⟩
          "alphavantage" none "../data").2 :=
  have hempty : (fetch_data_from_api "EURUSD" "1D" ⟨2025, 1, 2⟩ ⟨2025, 1, 1⟩
      "alphavantage" none).1 = [] := by
    rw [fetch_series_eq]
    exact create_sample_data_eq_neg _ _ _ (by decide)
  ⟨hempty, c6_empty_no_write "EURUSD" "1D" ⟨2025, 1, 2⟩ ⟨2025, 1, 1⟩
    "alphavantage" none "../data" hempty⟩

/-- Claim C10: the Series handed back by the dispatcher depends only on
(start_date, end_date, resolution); instrument, api key and even the
data-source selector do not influence it. -/
theorem c10_series_independent_of_identity (res : String) (sd ed : Date)
    (inst₁ inst₂ src₁ src₂ : String) (key₁ key₂ : Option String) :
    (fetch_data_from_api inst₁ res sd ed src₁ key₁).1 =
      (fetch_data_from_api inst₂ res sd ed src₂ key₂).1 := by
  rw [fetch_series_eq, fetch_series_eq]

/-- Claim C7: for every non-empty Series (post-epoch timestamps), writing the
CSV and re-parsing it recovers the same row count and the exact
(open, high, low, close) values, while each timestamp comes back truncated to
the minute (seconds dropped, not rounded). -/
theorem c7_csv_round_trip (s : Series) (hne : s ≠ [])
    (hts : ∀ r ∈ s, 0 ≤ r.timestamp) :
    (s.map toCsvRow).map parseCsvRow =
        s.map (fun r =>
          { r with timestamp := 60000 * (r.timestamp / 60000) }) ∧
      ((s.map toCsvRow).map parseCsvRow).length = s.length ∧
      ((s.map toCsvRow).map parseCsvRow).map
          (fun r => (r.open_, r.high, r.low, r.close)) =
        s.map (fun r => (r.open_, r.high, r.low, r.close)) := by
  have hmain : (s.map toCsvRow).map parseCsvRow =
      s.map (fun r =>
        { r with timestamp := 60000 * (r.timestamp / 60000) }) := by
    rw [List.map_map]
    apply List.map_congr_left
    intro r hr
    show parseCsvRow (toCsvRow r) = _
    unfold parseCsvRow toCsvRow
    simp only
    rw [parseDisplay_toDisplay r.timestamp (hts r hr)]
  refine ⟨hmain, ?_, ?_⟩
  · rw [hmain]
    simp
  · rw [hmain, List.map_map]
    rfl

/-- Witness for C7: a one-row series whose timestamp has 30 extra seconds;
they are dropped by the round trip. -/
theorem c7_csv_round_trip_witness :
    (([⟨1735689630000, 1, 2, 3, 4⟩] : Series) ≠ [] ∧
      ∀ r ∈ ([⟨1735689630000, 1, 2, 3, 4⟩] : Series), 0 ≤ r.timestamp) ∧
      ((([⟨1735689630000, 1, 2, 3, 4⟩] : Series).map toCsvRow).map
            parseCsvRow =
          ([⟨1735689630000, 1, 2, 3, 4⟩] : Series).map (fun r =>
            { r with timestamp := 60000 * (r.timestamp / 60000) }) ∧
        ((([⟨1735689630000, 1, 2, 3, 4⟩] : Series).map toCsvRow).map
            parseCsvRow).length =
          ([⟨1735689630000, 1, 2, 3, 4⟩] : Series).length ∧
        ((([⟨1735689630000, 1, 2, 3, 4⟩] : Series).map toCsvRow).map
              parseCsvRow).map
            (fun r => (r.open_, r.high, r.low, r.close)) =
          ([⟨1735689630000, 1, 2, 3, 4⟩] : Series).map
            (fun r => (r.open_, r.high, r.low, r.close))) :=
  ⟨⟨by simp, by simp⟩,
    c7_csv_round_trip [⟨1735689630000, 1, 2, 3, 4⟩] (by simp) (by simp)⟩

/-- Zero-pad a number to two digits, as `strftime` does for %m %d %H %M. -/
def pad2 (n : Nat) : String :=
  if n < 10 then "0" ++ toString n else toString n

/-- Zero-pad a number to four digits, as `strftime` does for %Y. -/
def pad4 (n : Nat) : String :=
  if n < 10 then "000" ++ toString n
  else if n < 100 then "00" ++ toString n
  else if n < 1000 then "0" ++ toString n
  else toString n

/-- The display string of a timestamp: strftime format "%Y-%m-%d %H:%M". -/
def renderDisplayTs (t : DisplayTs) : String :=
  pad4 t.year ++ "-" ++ pad2 t.month ++ "-" ++ pad2 t.day ++ " " ++
    pad2 t.hour ++ ":" ++ pad2 t.minute

/-- Claim C8: the single-day scenario start = end = 2025-01-01 at "1D"
produces exactly one exported row, timestamp string "2025-01-01 00:00",
open = 100, high = 100.5, low = 99.5, close = 100.2. -/
theorem c8_single_day_scenario :
    (download_financial_data "EURUSD" "1D" ⟨2025, 1, 1⟩ ⟨2025, 1, 1⟩
          "alphavantage" none "../data").1 =
        some ("../data/EURUSD_1D.csv",
          [{ timestamp := ⟨2025, 1, 1, 0, 0⟩, open_ := 100, high := 100.5,
             low := 99.5, close := 100.2 }]) ∧
      renderDisplayTs ⟨2025, 1, 1, 0, 0⟩ = "2025-01-01 00:00" := by
  constructor
  · have hser : (fetch_data_from_api "EURUSD" "1D" ⟨2025, 1, 1⟩ ⟨2025, 1, 1⟩
        "alphavantage" none).1 = [sampleRow 1735689600000 86400000 0] := by
      rw [fetch_series_eq]
      rw [create_sample_data_eq_pos _ _ _ (by decide)]
      have h1 : (epochMs ⟨2025, 1, 1⟩ - epochMs ⟨2025, 1, 1⟩).toNat /
          stepMs "1D" + 1 = 1 := by decide
      have h2 : epochMs ⟨2025, 1, 1⟩ = 1735689600000 := by decide
      have h3 : stepMs "1D" = 86400000 := by decide
      rw [h1, h2, h3]
      simp [List.range_succ]
    have hsr : sampleRow 1735689600000 86400000 0 =
        { timestamp := 1735689600000, open_ := 100, high := 100.5,
          low := 99.5, close := 100.2 } := by
      unfold sampleRow
      norm_num [Row.mk.injEq]
    have hts : toDisplay 1735689600000 = ⟨2025, 1, 1, 0, 0⟩ := by decide
    have hrow : toCsvRow (sampleRow 1735689600000 86400000 0) =
        { timestamp := ⟨2025, 1, 1, 0, 0⟩, open_ := 100, high := 100.5,
          low := 99.5, close := 100.2 } := by
      rw [hsr]
      unfold toCsvRow
      simp only
      rw [hts]
    unfold download_financial_data
    simp only
    rw [hser]
    simp only [List.isEmpty_cons, Bool.false_eq_true, if_false,
      List.map_cons, List.map_nil, hrow]
    rfl
  · decide

theorem collectSome_map_length (l : List (String × String))
    (g : String × String → Option String) :
    (collectSome (l.map g)).length =
      (l.filter fun p => (g p).isSome).length := by
  induction l with
  | nil => rfl
  | cons a t ih =>
    unfold collectSome at *
    simp only [List.map_cons, List.filterMap_cons, List.filter_cons]
    cases hga : g a with
    | none => simpa [hga] using ih
    | some b => simpa [hga] using ih

theorem download_isSome (inst res : String) (sd ed : Date) (src : String)
    (key : Option String) (dir : String) (h : epochMs sd ≤ epochMs ed) :
    ((download_financial_data inst res sd ed src key dir).1).isSome := by
  unfold download_financial_data
  simp only
  rw [fetch_series_eq]
  have hlen := create_sample_data_length sd ed res h
  cases hcs : create_sample_data sd ed res with
  | nil => rw [hcs] at hlen; simp at hlen
  | cons a t => simp [hcs]

/-- Claim C9: when every fetch succeeds (which it does on the hardcoded
window), the batch driver returns exactly 3 × 5 = 15 file paths; and in
general a pair whose export returns nothing is merely skipped — the driver
keeps exactly the successful pairs, never aborting the rest. -/
theorem c9_batch_driver (src : String) (key : Option String) (dir : String) :
    (download_all_assets src key dir).length = 15 ∧
      ∀ f : String → String → Option String,
        (batch_run f).length =
          (allPairs.filter fun p => (f p.1 p.2).isSome).length := by
  constructor
  · unfold download_all_assets batch_run
    rw [collectSome_map_length]
    have hall : ∀ p ∈ allPairs,
        ((download_financial_data p.1 p.2 ⟨2025, 1, 1⟩ ⟨2025, 9, 30⟩ src key
          dir).1.map Prod.fst).isSome = true := by
      intro p _
      have hs := download_isSome p.1 p.2 ⟨2025, 1, 1⟩ ⟨2025, 9, 30⟩ src key
        dir (by decide)
      cases hopt : (download_financial_data p.1 p.2 ⟨2025, 1, 1⟩
          ⟨2025, 9, 30⟩ src key dir).1 with
      | none => rw [hopt] at hs; simp at hs
      | some v => simp [hopt]
    rw [List.filter_eq_self.mpr hall]
    rfl
  · intro f
    unfold batch_run
    exact collectSome_map_length allPairs (fun p => f p.1 p.2)

/-! ### The float64 price computation

`prices = 100 + pd.Series(range(n)) * 0.1` and the subsequent `± 0.5`,
`+ 0.2` are evaluated by pandas in IEEE-754 binary64, not in exact decimal
arithmetic.  The model below captures the exact rational value of each stored
double: every intermediate quantity is a dyadic rational `m * 2 ^ e`, and
each operation rounds its exact result to 53 significant bits with
round-to-nearest, ties to even — precisely binary64 rounding on the normal,
non-overflowing range where the whole computation lives.  The prices in
`sampleRow` are the idealized decimal values; the per-index functions
`floatOpen`, `floatHigh`, `floatLow`, `floatClose` are the values the program
actually stores and exports (prices depend only on the row index, not on the
date range). -/

/-- Bit length of a natural number, with fuel; `bitLen n n` is exact because
`n < 2 ^ n`. -/
def bitLen : Nat → Nat → Nat
  | 0, _ => 0
  | fuel + 1, n => if n = 0 then 0 else bitLen fuel (n / 2) + 1

/-- Exact rational value of a dyadic pair `(m, e)`, meaning `m * 2 ^ e`. -/
def dyVal (a : Int × Int) : ℚ :=
  (a.1 : ℚ) * (2 : ℚ) ^ a.2

/-- Exact sum of two dyadic values (align exponents, add mantissas). -/
def dyAdd (a b : Int × Int) : Int × Int :=
  if a.2 ≤ b.2 then (a.1 + b.1 * 2 ^ (b.2 - a.2).toNat, a.2)
  else (a.1 * 2 ^ (a.2 - b.2).toNat + b.1, b.2)

/-- Exact product of two dyadic values. -/
def dyMul (a b : Int × Int) : Int × Int := (a.1 * b.1, a.2 + b.2)

/-- Round-to-nearest-even mantissa: keep the top 53 of `L` bits of `m`,
rounding by the dropped remainder, ties to the even candidate. -/
def roundMant (m : Int) (L : Nat) : Int :=
  let shift := L - 53
  let q := m / 2 ^ shift
  let r := m % 2 ^ shift
  let half : Int := 2 ^ (shift - 1)
  if r < half then q else if half < r then q + 1
  else if q % 2 = 0 then q else q + 1

/-- IEEE-754 binary64 rounding of a positive dyadic value (normal range, no
overflow — the range of every value in the price pipeline).  Values that
already fit in 53 bits, and nonpositive mantissas, are returned unchanged. -/
def roundDy (a : Int × Int) : Int × Int :=
  if a.1 ≤ 0 then a
  else if bitLen a.1.toNat a.1.toNat ≤ 53 then a
  else (roundMant a.1 (bitLen a.1.toNat a.1.toNat),
    a.2 + (bitLen a.1.toNat a.1.toNat - 53 : Nat))

/-- Float64 addition: exact sum, then rounding. -/
def fadd (a b : Int × Int) : Int × Int := roundDy (dyAdd a b)

/-- Float64 multiplication: exact product, then rounding. -/
def fmul (a b : Int × Int) : Int × Int := roundDy (dyMul a b)

/-- The double denoted by the source literal 0.1: the binary64 value nearest
1/10, namely 7205759403792794 * 2 ^ (-56) = 1/10 + (2/5) * 2 ^ (-56). -/
def c01f : Int × Int := (7205759403792794, -56)

/-- The double denoted by the source literal 0.2: the binary64 value nearest
1/5, namely 7205759403792794 * 2 ^ (-55). -/
def c02f : Int × Int := (7205759403792794, -55)

/-- The open stored at row index `i`: `100 + i * 0.1` in float64 (the int64
index converts to double exactly for every reachable `i`). -/
def floatOpen (i : Nat) : Int × Int := fadd (100, 0) (fmul ((i : Int), 0) c01f)

/-- The high stored at row index `i`: `open + 0.5` in float64. -/
def floatHigh (i : Nat) : Int × Int := fadd (floatOpen i) (1, -1)

/-- The low stored at row index `i`: `open - 0.5` in float64. -/
def floatLow (i : Nat) : Int × Int := fadd (floatOpen i) (-1, -1)

/-- The close stored at row index `i`: `open + 0.2` in float64. -/
def floatClose (i : Nat) : Int × Int := fadd (floatOpen i) c02f

theorem dyVal_dyAdd (a b : Int × Int) :
    dyVal (dyAdd a b) = dyVal a + dyVal b := by
  unfold dyVal dyAdd
  split_ifs with h
  · have hk : ((b.2 - a.2).toNat : ℤ) = b.2 - a.2 := Int.toNat_of_nonneg (by omega)
    push_cast
    rw [add_mul, mul_assoc, ← zpow_natCast (2 : ℚ) (b.2 - a.2).toNat,
      ← zpow_add₀ (two_ne_zero), hk]
    ring_nf
  · have hk : ((a.2 - b.2).toNat : ℤ) = a.2 - b.2 := Int.toNat_of_nonneg (by omega)
    push_cast
    rw [add_mul, mul_assoc, ← zpow_natCast (2 : ℚ) (a.2 - b.2).toNat,
      ← zpow_add₀ (two_ne_zero), hk]
    ring_nf

theorem dyVal_dyMul (a b : Int × Int) :
    dyVal (dyMul a b) = dyVal a * dyVal b := by
  unfold dyVal dyMul
  push_cast
  rw [zpow_add₀ (two_ne_zero : (2 : ℚ) ≠ 0)]
  ring

theorem dyVal_nonneg (a : Int × Int) (h : 0 ≤ a.1) : 0 ≤ dyVal a := by
  unfold dyVal
  have : (0 : ℚ) < (2 : ℚ) ^ a.2 := zpow_pos (by norm_num) _
  positivity

theorem dyVal_nonneg_iff (a : Int × Int) : 0 ≤ dyVal a ↔ 0 ≤ a.1 := by
  unfold dyVal
  have h2 : (0 : ℚ) < (2 : ℚ) ^ a.2 := zpow_pos (by norm_num) _
  constructor
  · intro h
    by_contra hneg
    push_neg at hneg
    have : (a.1 : ℚ) < 0 := by exact_mod_cast hneg
    nlinarith
  · intro h
    have : (0 : ℚ) ≤ (a.1 : ℚ) := by exact_mod_cast h
    positivity

theorem bitLen_zero (fuel : Nat) : bitLen fuel 0 = 0 := by
  cases fuel <;> simp [bitLen]

theorem bitLen_spec (fuel n : Nat) (h : n < 2 ^ fuel) :
    n < 2 ^ bitLen fuel n ∧ (n = 0 ∨ 2 ^ (bitLen fuel n - 1) ≤ n) := by
  induction fuel generalizing n with
  | zero =>
    simp only [pow_zero] at h
    interval_cases n
    simp [bitLen]
  | succ fuel ih =>
    simp only [bitLen]
    split_ifs with hn
    · subst hn
      simp
    · have h2 : n / 2 < 2 ^ fuel := by
        rw [pow_succ] at h
        omega
      obtain ⟨ih1, ih2⟩ := ih (n / 2) h2
      constructor
      · rw [pow_succ]
        omega
      · right
        rcases ih2 with h0 | hl
        · have hn1 : n = 1 := by omega
          have hb : bitLen fuel (n / 2) = 0 := by
            rw [show n / 2 = 0 by omega, bitLen_zero]
          rw [hb, hn1]
          simp
        · rcases Nat.eq_zero_or_pos (bitLen fuel (n / 2)) with hk | hk
          · rw [hk]
            simp
            omega
          · have hsplit : bitLen fuel (n / 2) - 1 + 1 = bitLen fuel (n / 2) := by
              omega
            have h2k : 2 ^ (bitLen fuel (n / 2)) ≤ 2 * (n / 2) := by
              calc 2 ^ bitLen fuel (n / 2)
                  = 2 ^ (bitLen fuel (n / 2) - 1 + 1) := by rw [hsplit]
                _ = 2 ^ (bitLen fuel (n / 2) - 1) * 2 := by rw [pow_succ]
                _ ≤ (n / 2) * 2 := by omega
                _ = 2 * (n / 2) := by ring
            simp only [Nat.add_sub_cancel]
            omega

theorem roundMant_close (m : Int) (L : Nat) (hm : 0 < m) (hL : 54 ≤ L) :
    |roundMant m L * 2 ^ (L - 53) - m| ≤ 2 ^ (L - 53 - 1) := by
  unfold roundMant
  simp only
  set shift := L - 53 with hs
  have hs1 : 1 ≤ shift := by omega
  have hpow : (2 : ℤ) ^ shift = 2 * 2 ^ (shift - 1) := by
    rw [← pow_succ']
    congr 1
    omega
  have hdm := Int.ediv_add_emod m (2 ^ shift)
  have hr0 : 0 ≤ m % 2 ^ shift := Int.emod_nonneg m (by positivity)
  have hrlt : m % 2 ^ shift < 2 ^ shift := Int.emod_lt_of_pos m (by positivity)
  have hAP : m / 2 ^ shift * 2 ^ shift = m - m % 2 ^ shift := by linarith
  rw [abs_le]
  split_ifs with h1 h2 h3 <;> constructor <;> nlinarith [hAP, hpow, hr0, hrlt]

/-- Rounding a nonnegative value changes it by at most half an ulp, i.e. a
relative error of 2 ^ (-53). -/
theorem roundDy_err (m e : Int) (hm : 0 ≤ m) :
    |dyVal (roundDy (m, e)) - dyVal (m, e)| ≤ dyVal (m, e) / 2 ^ 53 := by
  have hval : 0 ≤ dyVal (m, e) := dyVal_nonneg _ (by simpa using hm)
  have hgoal0 : (0 : ℚ) ≤ dyVal (m, e) / 2 ^ 53 := by positivity
  unfold roundDy
  simp only
  split_ifs with h1 h2
  · simpa using hgoal0
  · simpa using hgoal0
  · push_neg at h1 h2
    obtain ⟨hub, hlb'⟩ := bitLen_spec m.toNat m.toNat (Nat.lt_two_pow _)
    have hmne : m.toNat ≠ 0 := by omega
    have hlb : 2 ^ (bitLen m.toNat m.toNat - 1) ≤ m.toNat := by
      rcases hlb' with h0 | h
      · exact absurd h0 hmne
      · exact h
    set L := bitLen m.toNat m.toNat with hLdef
    have hL54 : 54 ≤ L := by omega
    have key := roundMant_close m L h1 hL54
    set n := roundMant m L with hn
    have hcast : dyVal (n, e + (L - 53 : Nat)) - dyVal (m, e) =
        ((n * 2 ^ (L - 53) - m : ℤ) : ℚ) * (2 : ℚ) ^ e := by
      unfold dyVal
      simp only
      push_cast
      rw [zpow_add₀ (two_ne_zero : (2 : ℚ) ≠ 0), zpow_natCast]
      ring
    rw [hcast, abs_mul, abs_of_pos (zpow_pos (by norm_num : (0 : ℚ) < 2) e)]
    have hI : (|(n * 2 ^ (L - 53) - m : ℤ)| : ℚ) ≤ ((2 : ℚ) ^ (L - 54) : ℚ) := by
      have h54 : L - 53 - 1 = L - 54 := by omega
      have hc2 : ((2 : ℤ) ^ (L - 53 - 1) : ℚ) = (2 : ℚ) ^ (L - 54) := by
        rw [h54]
        push_cast
        ring
      rw [← hc2]
      exact_mod_cast key
    rw [le_div_iff₀ (by positivity : (0 : ℚ) < 2 ^ 53)]
    have hmQ : ((2 : ℚ) ^ (L - 1)) ≤ (m : ℚ) := by
      have h1' : ((2 ^ (L - 1) : ℕ) : ℚ) ≤ ((m.toNat : ℕ) : ℚ) := by
        exact_mod_cast hlb
      have h2' : ((m.toNat : ℕ) : ℚ) = (m : ℚ) := by
        have := Int.toNat_of_nonneg hm
        exact_mod_cast this
      rw [h2'] at h1'
      calc (2 : ℚ) ^ (L - 1) = ((2 ^ (L - 1) : ℕ) : ℚ) := by push_cast; ring
        _ ≤ (m : ℚ) := h1'
    calc |((n * 2 ^ (L - 53) - m : ℤ) : ℚ)| * (2 : ℚ) ^ e * 2 ^ 53
        ≤ (2 : ℚ) ^ (L - 54) * (2 : ℚ) ^ e * 2 ^ 53 := by
          have he : (0 : ℚ) ≤ (2 : ℚ) ^ e := le_of_lt (zpow_pos (by norm_num) e)
          have h53 : (0 : ℚ) ≤ (2 : ℚ) ^ (53 : ℕ) := by positivity
          apply mul_le_mul_of_nonneg_right _ h53
          exact mul_le_mul_of_nonneg_right hI he
      _ = (2 : ℚ) ^ (L - 1) * (2 : ℚ) ^ e := by
          rw [mul_right_comm, ← pow_add]
          congr 2
          omega
      _ ≤ (m : ℚ) * (2 : ℚ) ^ e := by
          exact mul_le_mul_of_nonneg_right hmQ
            (le_of_lt (zpow_pos (by norm_num) e))
      _ = dyVal (m, e) := by unfold dyVal; simp

theorem roundDy_pair_err (a : Int × Int) (hm : 0 ≤ a.1) :
    |dyVal (roundDy a) - dyVal a| ≤ dyVal a / 2 ^ 53 := by
  obtain ⟨m, e⟩ := a
  exact roundDy_err m e hm

/-- Float64 addition of a nonnegative exact sum is within half an ulp of it. -/
theorem fadd_err (a b : Int × Int) (h : 0 ≤ dyVal a + dyVal b) :
    |dyVal (fadd a b) - (dyVal a + dyVal b)| ≤ (dyVal a + dyVal b) / 2 ^ 53 := by
  have hm : 0 ≤ (dyAdd a b).1 := by
    rw [← dyVal_nonneg_iff, dyVal_dyAdd]
    exact h
  have hres := roundDy_pair_err (dyAdd a b) hm
  rw [dyVal_dyAdd] at hres
  exact hres

/-- Float64 multiplication of a nonnegative exact product is within half an
ulp of it. -/
theorem fmul_err (a b : Int × Int) (h : 0 ≤ dyVal a * dyVal b) :
    |dyVal (fmul a b) - dyVal a * dyVal b| ≤ (dyVal a * dyVal b) / 2 ^ 53 := by
  have hm : 0 ≤ (dyMul a b).1 := by
    rw [← dyVal_nonneg_iff, dyVal_dyMul]
    exact h
  have hres := roundDy_pair_err (dyMul a b) hm
  rw [dyVal_dyMul] at hres
  exact hres

theorem dyVal_c01f : dyVal c01f = 7205759403792794 / 2 ^ 56 := by
  unfold dyVal c01f
  norm_num

theorem dyVal_c02f : dyVal c02f = 7205759403792794 / 2 ^ 55 := by
  unfold dyVal c02f
  norm_num

theorem dyVal_100 : dyVal (100, 0) = 100 := by
  unfold dyVal
  norm_num

theorem dyVal_half : dyVal ((1 : ℤ), (-1 : ℤ)) = 1 / 2 := by
  unfold dyVal
  norm_num

theorem dyVal_neg_half : dyVal ((-1 : ℤ), (-1 : ℤ)) = -(1 / 2) := by
  unfold dyVal
  norm_num

theorem dyVal_nat (i : Nat) : dyVal ((i : ℤ), 0) = (i : ℚ) := by
  unfold dyVal
  norm_num

/-- The stored open is within relative error 2 ^ (-50) of the decimal
100 + i × 0.1 (two roundings plus the representation error of 0.1). -/
theorem floatOpen_err (i : Nat) :
    |dyVal (floatOpen i) - (100 + (i : ℚ) * (1 / 10))| ≤
      (100 + (i : ℚ) * (1 / 10)) / 2 ^ 50 := by
  have hiq : (0 : ℚ) ≤ (i : ℚ) := by positivity
  have h01l : (1 : ℚ) / 10 - 1 / 2 ^ 57 ≤ dyVal c01f := by
    rw [dyVal_c01f]
    norm_num
  have h01h : dyVal c01f ≤ (1 : ℚ) / 10 + 1 / 2 ^ 57 := by
    rw [dyVal_c01f]
    norm_num
  have h010 : (0 : ℚ) ≤ dyVal c01f := by rw [dyVal_c01f]; positivity
  have hu0 : (0 : ℚ) ≤ (i : ℚ) * dyVal c01f := by positivity
  have ht1 := fmul_err ((i : ℤ), 0) c01f (by rw [dyVal_nat]; exact hu0)
  rw [dyVal_nat] at ht1
  obtain ⟨ht1l, ht1h⟩ := abs_le.mp ht1
  have hu1 := mul_le_mul_of_nonneg_left h01h hiq
  have hu2 := mul_le_mul_of_nonneg_left h01l hiq
  rw [mul_add] at hu1
  rw [mul_sub] at hu2
  have ht10 : 0 ≤ dyVal (fmul ((i : ℤ), 0) c01f) := by linarith
  have hS0 : (0 : ℚ) ≤ dyVal (100, 0) + dyVal (fmul ((i : ℤ), 0) c01f) := by
    rw [dyVal_100]
    linarith
  have hopen := fadd_err (100, 0) (fmul ((i : ℤ), 0) c01f) hS0
  rw [dyVal_100] at hopen
  obtain ⟨hol, hoh⟩ := abs_le.mp hopen
  unfold floatOpen
  rw [abs_le]
  constructor <;> linarith

/-- Every stored open is at least 99. -/
theorem floatOpen_lower (i : Nat) : 99 ≤ dyVal (floatOpen i) := by
  have h := floatOpen_err i
  obtain ⟨hl, hh⟩ := abs_le.mp h
  have hiq : (0 : ℚ) ≤ (i : ℚ) := by positivity
  nlinarith

/-- For indices reachable within the supported date range the stored open
stays far below the 2 ^ 52 coarse-ulp threshold. -/
theorem floatOpen_upper (i : Nat) (hi : (i : ℚ) ≤ 2 ^ 33) :
    dyVal (floatOpen i) ≤ 2 ^ 31 := by
  have h := floatOpen_err i
  obtain ⟨hl, hh⟩ := abs_le.mp h
  have hiq : (0 : ℚ) ≤ (i : ℚ) := by positivity
  nlinarith

/-- The stored high is within half an ulp of open + 0.5. -/
theorem floatHigh_err (i : Nat) :
    |dyVal (floatHigh i) - (dyVal (floatOpen i) + 1 / 2)| ≤
      (dyVal (floatOpen i) + 1 / 2) / 2 ^ 53 := by
  have hlow := floatOpen_lower i
  have h := fadd_err (floatOpen i) (1, -1) (by rw [dyVal_half]; linarith)
  rwa [dyVal_half] at h

/-- The stored low is within half an ulp of open − 0.5. -/
theorem floatLow_err (i : Nat) :
    |dyVal (floatLow i) - (dyVal (floatOpen i) - 1 / 2)| ≤
      (dyVal (floatOpen i) - 1 / 2) / 2 ^ 53 := by
  have hlow := floatOpen_lower i
  have h := fadd_err (floatOpen i) (-1, -1) (by rw [dyVal_neg_half]; linarith)
  rw [dyVal_neg_half] at h
  have he : dyVal (floatOpen i) + -(1 / 2) = dyVal (floatOpen i) - 1 / 2 := by
    ring
  rwa [he] at h

/-- The stored close is within relative error 2 ^ (-52) of open + 0.2. -/
theorem floatClose_err (i : Nat) :
    |dyVal (floatClose i) - (dyVal (floatOpen i) + 1 / 5)| ≤
      (dyVal (floatOpen i) + 1 / 5) / 2 ^ 52 := by
  have hlow := floatOpen_lower i
  have h02l : (1 : ℚ) / 5 - 1 / 2 ^ 56 ≤ dyVal c02f := by
    rw [dyVal_c02f]
    norm_num
  have h02h : dyVal c02f ≤ (1 : ℚ) / 5 + 1 / 2 ^ 56 := by
    rw [dyVal_c02f]
    norm_num
  have h := fadd_err (floatOpen i) c02f (by linarith)
  obtain ⟨hl, hh⟩ := abs_le.mp h
  unfold floatClose
  rw [abs_le]
  constructor <;> linarith

/-- OHLC ordering and the near-unit high − low spread, for indices in the
reachable range. -/
theorem float_ohlc_order (i : Nat) (hi : (i : ℚ) ≤ 2 ^ 33) :
    dyVal (floatLow i) ≤ dyVal (floatOpen i) ∧
      dyVal (floatOpen i) ≤ dyVal (floatHigh i) ∧
      dyVal (floatLow i) ≤ dyVal (floatClose i) ∧
      dyVal (floatClose i) ≤ dyVal (floatHigh i) ∧
      |dyVal (floatHigh i) - dyVal (floatLow i) - 1| ≤
        dyVal (floatOpen i) / 2 ^ 51 := by
  have hlo := floatOpen_lower i
  have hup := floatOpen_upper i hi
  obtain ⟨hH1, hH2⟩ := abs_le.mp (floatHigh_err i)
  obtain ⟨hL1, hL2⟩ := abs_le.mp (floatLow_err i)
  obtain ⟨hC1, hC2⟩ := abs_le.mp (floatClose_err i)
  refine ⟨by linarith, by linarith, by linarith, by linarith, ?_⟩
  rw [abs_le]
  constructor <;> linarith

theorem getD_le_31 (l : List Nat) (h : ∀ x ∈ l, x ≤ 31) (k : Nat) :
    l.getD k 31 ≤ 31 := by
  induction l generalizing k with
  | nil => simp [List.getD]
  | cons a t ih =>
    cases k with
    | zero => simpa using h a (by simp)
    | succ k =>
      simp only [List.getD_cons_succ]
      exact ih (fun x hx => h x (by simp [hx])) k

theorem daysInMonth_le (y m : Nat) : daysInMonth y m ≤ 31 := by
  unfold daysInMonth
  apply getD_le_31
  intro x hx
  unfold monthLengths at hx
  split_ifs at hx <;> simp at hx <;> omega

theorem daysBeforeMonth_le (y m : Nat) : daysBeforeMonth y m ≤ 366 := by
  unfold daysBeforeMonth
  have h1 : ((monthLengths y).take (m - 1)).sum ≤ (monthLengths y).sum := by
    conv_rhs => rw [← List.take_append_drop (m - 1) (monthLengths y)]
    rw [List.sum_append]
    omega
  have h2 := monthLengths_sum y
  have h3 : daysInYear y ≤ 366 := by unfold daysInYear; split <;> omega
  omega

/-- Within the supported date range (years 1..9999), midnight timestamps stay
below 2 ^ 48 milliseconds. -/
theorem epochMs_le_max (dt : Date) (h : ValidDate dt) :
    epochMs dt ≤ 253405065600000 := by
  obtain ⟨h1, h2, h3, h4, h5, h6⟩ := h
  have hy : daysBeforeYear dt.year ≤ 3651694 := by
    unfold daysBeforeYear
    have := Nat.div_le_div_right (c := 4) (Nat.sub_le_sub_right h2 1)
    have := Nat.div_le_div_right (c := 400) (Nat.sub_le_sub_right h2 1)
    omega
  have hm := daysBeforeMonth_le dt.year dt.month
  have hd : dt.day ≤ 31 := le_trans h6 (daysInMonth_le _ _)
  have hdays : daysFromCivil dt ≤ 2932929 := by
    unfold daysFromCivil daysFromCivilN
    push_cast
    omega
  unfold epochMs
  have := mul_le_mul_of_nonneg_right hdays
    (by norm_num : (0 : Int) ≤ 86400000)
  linarith

/-- No date maps to a timestamp before year 1's midnight. -/
theorem epochMs_ge_min (dt : Date) : -62135596800000 ≤ epochMs dt := by
  unfold epochMs daysFromCivil
  have h0 : (0 : Int) ≤ (daysFromCivilN dt.year dt.month dt.day : Int) := by
    positivity
  nlinarith

/-- Any index of a generated Series over valid dates fits well below 2 ^ 33:
the widest range (year 1 to 9999 at one-minute steps) has about 5.3e9 rows. -/
theorem index_le_of_lt_length (sd ed : Date) (res : String)
    (hsd : ValidDate sd) (hed : ValidDate ed) (h : epochMs sd ≤ epochMs ed)
    (i : Nat) (hi : i < (create_sample_data sd ed res).length) :
    (i : ℚ) ≤ 2 ^ 33 := by
  rw [create_sample_data_length sd ed res h] at hi
  have hE := epochMs_le_max ed hed
  have hS := epochMs_ge_min sd
  have hspan : (epochMs ed - epochMs sd).toNat ≤ 315540662400000 := by omega
  have hstep : 60000 ≤ stepMs res := by unfold stepMs; split_ifs <;> norm_num
  have hdiv : (epochMs ed - epochMs sd).toNat / stepMs res ≤
      315540662400000 / 60000 :=
    Nat.div_le_div hspan hstep (by norm_num)
  have hle : i ≤ 5259011040 := by omega
  have : (i : ℚ) ≤ 5259011040 := by exact_mod_cast hle
  linarith [show (5259011040 : ℚ) ≤ 2 ^ 33 by norm_num]

/-- Claim C1 as stated is false of the program: the prices are computed in
float64, so at the reachable index 641 the stored open is neither
100 + 641 × 0.1 nor even the binary64 value nearest that decimal
(5773755459777331 * 2 ^ (-45)), and at index 277 the stored high is not
open + 0.5.  Index 641 is reachable already by one day at one-minute
resolution (1441 rows). -/
theorem c1_exact_prices_counterexample :
    641 < (create_sample_data ⟨2025, 1, 1⟩ ⟨2025, 1, 2⟩ "1min").length ∧
      dyVal (floatOpen 641) ≠ 100 + (641 : ℚ) * (1 / 10) ∧
      dyVal (floatOpen 641) ≠ 5773755459777331 / 2 ^ 45 ∧
      dyVal (floatHigh 277) ≠ dyVal (floatOpen 277) + 1 / 2 := by
  have ho641 : floatOpen 641 = (5773755459777332, -45) := by decide
  have ho277 : floatOpen 277 = (8986088631487693, -46) := by decide
  have hh277 : floatHigh 277 = (4510636501788262, -45) := by decide
  refine ⟨?_, ?_, ?_, ?_⟩
  · rw [create_sample_data_length _ _ _ (by decide)]
    decide
  · rw [ho641]
    unfold dyVal
    norm_num
  · rw [ho641]
    unfold dyVal
    norm_num
  · rw [ho277, hh277]
    unfold dyVal
    norm_num

/-- Claim C1 (amended): for every valid date range and resolution and every
row index of the generated Series, the stored prices are the float64 values
fl(100 + fl(i * 0.1d)), fl(open + 0.5), fl(open - 0.5), fl(open + 0.2d)
(0.1d, 0.2d the doubles nearest 0.1 and 0.2); the open matches 100 + i × 0.1
only to within a relative error of 2 ^ (-50), and high, low, close match
open + 0.5, open − 0.5, open + 0.2 to within half-ulp-level relative errors,
not exactly. -/
theorem c1_float_row_values (sd ed : Date) (res : String)
    (hsd : ValidDate sd) (hed : ValidDate ed) (hle : dateLE sd ed)
    (i : Nat) (hi : i < (create_sample_data sd ed res).length) :
    |dyVal (floatOpen i) - (100 + (i : ℚ) * (1 / 10))| ≤
        (100 + (i : ℚ) * (1 / 10)) / 2 ^ 50 ∧
      |dyVal (floatHigh i) - (dyVal (floatOpen i) + 1 / 2)| ≤
        (dyVal (floatOpen i) + 1 / 2) / 2 ^ 53 ∧
      |dyVal (floatLow i) - (dyVal (floatOpen i) - 1 / 2)| ≤
        (dyVal (floatOpen i) - 1 / 2) / 2 ^ 53 ∧
      |dyVal (floatClose i) - (dyVal (floatOpen i) + 1 / 5)| ≤
        (dyVal (floatOpen i) + 1 / 5) / 2 ^ 52 :=
  ⟨floatOpen_err i, floatHigh_err i, floatLow_err i, floatClose_err i⟩

/-- Witness for the amended C1 at a concrete input. -/
theorem c1_float_row_values_witness :
    ValidDate ⟨2025, 1, 1⟩ ∧ ValidDate ⟨2025, 1, 2⟩ ∧
      dateLE ⟨2025, 1, 1⟩ ⟨2025, 1, 2⟩ ∧
      1 < (create_sample_data ⟨2025, 1, 1⟩ ⟨2025, 1, 2⟩ "1D").length ∧
      (|dyVal (floatOpen 1) - (100 + (1 : ℚ) * (1 / 10))| ≤
          (100 + (1 : ℚ) * (1 / 10)) / 2 ^ 50 ∧
        |dyVal (floatHigh 1) - (dyVal (floatOpen 1) + 1 / 2)| ≤
          (dyVal (floatOpen 1) + 1 / 2) / 2 ^ 53 ∧
        |dyVal (floatLow 1) - (dyVal (floatOpen 1) - 1 / 2)| ≤
          (dyVal (floatOpen 1) - 1 / 2) / 2 ^ 53 ∧
        |dyVal (floatClose 1) - (dyVal (floatOpen 1) + 1 / 5)| ≤
          (dyVal (floatOpen 1) + 1 / 5) / 2 ^ 52) :=
  ⟨by decide, by decide, by decide, by decide,
    c1_float_row_values ⟨2025, 1, 1⟩ ⟨2025, 1, 2⟩ "1D" (by decide) (by decide)
      (by decide) 1 (by decide)⟩

/-- Claim C3 as stated is false of the program: in float64 the row at the
reachable index 277 has high − low = 1 − 2 ^ (-46), not 1.0. -/
theorem c3_high_low_counterexample :
    277 < (create_sample_data ⟨2025, 1, 1⟩ ⟨2025, 1, 2⟩ "1min").length ∧
      dyVal (floatHigh 277) - dyVal (floatLow 277) ≠ 1 := by
  have hh277 : floatHigh 277 = (4510636501788262, -45) := by decide
  have hl277 : floatLow 277 = (8950904259398861, -46) := by decide
  constructor
  · rw [create_sample_data_length _ _ _ (by decide)]
    decide
  · rw [hh277, hl277]
    unfold dyVal
    norm_num

/-- Claim C3 (amended): every generated row satisfies low ≤ open ≤ high and
low ≤ close ≤ high, but in the program's float64 arithmetic high − low
equals 1.0 only approximately — within open × 2 ^ (-51) — with exact
equality failing at reachable indices (first at index 277). -/
theorem c3_float_ohlc_bounds (sd ed : Date) (res : String)
    (hsd : ValidDate sd) (hed : ValidDate ed) (hle : dateLE sd ed)
    (i : Nat) (hi : i < (create_sample_data sd ed res).length) :
    dyVal (floatLow i) ≤ dyVal (floatOpen i) ∧
      dyVal (floatOpen i) ≤ dyVal (floatHigh i) ∧
      dyVal (floatLow i) ≤ dyVal (floatClose i) ∧
      dyVal (floatClose i) ≤ dyVal (floatHigh i) ∧
      |dyVal (floatHigh i) - dyVal (floatLow i) - 1| ≤
        dyVal (floatOpen i) / 2 ^ 51 :=
  float_ohlc_order i
    (index_le_of_lt_length sd ed res hsd hed (epochMs_le_of_dateLE hle) i hi)

/-- Witness for the amended C3 at a concrete input. -/
theorem c3_float_ohlc_bounds_witness :
    ValidDate ⟨2025, 1, 1⟩ ∧ ValidDate ⟨2025, 1, 2⟩ ∧
      dateLE ⟨2025, 1, 1⟩ ⟨2025, 1, 2⟩ ∧
      1 < (create_sample_data ⟨2025, 1, 1⟩ ⟨2025, 1, 2⟩ "1D").length ∧
      (dyVal (floatLow 1) ≤ dyVal (floatOpen 1) ∧
        dyVal (floatOpen 1) ≤ dyVal (floatHigh 1) ∧
        dyVal (floatLow 1) ≤ dyVal (floatClose 1) ∧
        dyVal (floatClose 1) ≤ dyVal (floatHigh 1) ∧
        |dyVal (floatHigh 1) - dyVal (floatLow 1) - 1| ≤
          dyVal (floatOpen 1) / 2 ^ 51) :=
  ⟨by decide, by decide, by decide, by decide,
    c3_float_ohlc_bounds ⟨2025, 1, 1⟩ ⟨2025, 1, 2⟩ "1D" (by decide) (by decide)
      (by decide) 1 (by decide)⟩
